import Mathlib

/-!
Shallow embedding of `SqliteSetup` from `src/sqlite.rs` of jclulow/rust-jmclib.

The embedding models:
* the builder state (`Setup`, mirroring the `SqliteSetup` struct and the
  defaults of `SqliteSetup::new`),
* the schema-script parser (lines 115-134 of `sqlite.rs`),
* the statement whitespace normalisation (lines 153-162),
* the per-step migration transaction (lines 164-200), and
* the full `open` pipeline: connection opening, integrity check, pragma
  configuration, script parsing, migration loop.

The SQLite engine itself is an external collaborator; its responses are
modelled by an `Engine` record of oracles.  The persistent state of the
database file is a `DB` value: the stored `user_version` plus the list of
schema statements whose transactions committed, in commit order.  Rollback is
modelled by construction: a step that fails before `commit` returns an error
and the caller keeps its previous `DB`, exactly as dropping an uncommitted
`rusqlite` transaction rolls it back.

String manipulation is implemented over `List Char` with structural
recursion, so every definition evaluates inside the kernel on concrete
inputs.
-/

namespace Jmclib

/-- Rust `char::is_whitespace` (the Unicode White_Space property), the
predicate used by `str::trim`. -/
def isRustWhitespace (c : Char) : Bool :=
  c.toNat == 0x9 || c.toNat == 0xA || c.toNat == 0xB || c.toNat == 0xC ||
  c.toNat == 0xD || c.toNat == 0x20 || c.toNat == 0x85 || c.toNat == 0xA0 ||
  c.toNat == 0x1680 || (0x2000 ≤ c.toNat && c.toNat ≤ 0x200A) ||
  c.toNat == 0x2028 || c.toNat == 0x2029 || c.toNat == 0x202F ||
  c.toNat == 0x205F || c.toNat == 0x3000

deriving instance DecidableEq for Except

/-- Rust `str::to_ascii_uppercase`: ASCII lower-case letters are upcased,
every other character is unchanged.  (`Char.toUpper` is exactly the ASCII
upcasing of one character.) -/
def toAsciiUppercase (s : String) : String :=
  String.mk (s.data.map Char.toUpper)

/-- Rust `str::trim` on the character list of a string. -/
def trimChars (cs : List Char) : List Char :=
  ((cs.dropWhile isRustWhitespace).reverse.dropWhile isRustWhitespace).reverse

/-- Rust `str::trim`. -/
def rustTrim (s : String) : String := String.mk (trimChars s.data)

/-- Split a character list at each newline, like Rust `str::split('\n')`:
the result has one more piece than there are newlines. -/
def splitNL : List Char → List (List Char)
  | [] => [[]]
  | '\n' :: rest => [] :: splitNL rest
  | c :: rest =>
    match splitNL rest with
    | [] => [[c]]
    | p :: ps => (c :: p) :: ps

/-- Remove a single trailing carriage return, as Rust `str::lines` does for
lines that were terminated by a carriage return plus newline. -/
def stripCR (l : List Char) : List Char :=
  match l.reverse with
  | '\r' :: rest => rest.reverse
  | _ => l

/-- Core of Rust `str::lines` after splitting at newlines: the final empty
piece is dropped (the final line ending is optional), and every piece that
was terminated by a newline has one trailing carriage return stripped.  A
trailing carriage return on a last, unterminated line is kept, as in Rust. -/
def rustLinesC : List (List Char) → List (List Char)
  | [] => []
  | [l] => if l.isEmpty then [] else [l]
  | l :: rest => stripCR l :: rustLinesC rest

/-- Rust `schema.lines()` as used by the parser of `SqliteSetup::open`. -/
def rustLines (s : String) : List String :=
  (rustLinesC (splitNL s.data)).map String.mk

/-- Characters of the 5-character version marker. -/
def markerChars : List Char := ['-', '-', ' ', 'v', ' ']

/-- Whether `pat` is an initial run of `cs`; Rust `str::starts_with` for the
literal patterns used here. -/
def leadMatch : List Char → List Char → Bool
  | [], _ => true
  | _ :: _, [] => false
  | p :: ps, c :: cs => p == c && leadMatch ps cs

/-- Rust `l.starts_with("-- v ")` on a script line. -/
def isMarkerLine (l : String) : Bool := leadMatch markerChars l.data

/-- Rust `l.trim_start_matches("-- v ")`: every leading repetition of the
marker is removed, not just the first one. -/
def dropMarker : List Char → List Char
  | '-' :: '-' :: ' ' :: 'v' :: ' ' :: rest => dropMarker rest
  | cs => cs

/-- Rust `str::parse::<u32>`: an optional leading plus sign, then one or more
ASCII digits, with the resulting value bounded by `2^32`. -/
def parseU32C (cs : List Char) : Option Nat :=
  let ds := match cs with
    | '+' :: rest => rest
    | _ => cs
  if ds.isEmpty then none
  else if ds.all Char.isDigit then
    let v := ds.foldl (fun a c => a * 10 + (c.toNat - 48)) 0
    if v < 4294967296 then some v else none
  else none

/-- Rust `str::parse::<u32>` on a string. -/
def parseU32 (s : String) : Option Nat := parseU32C s.data

/-- One pass of the schema-script parser of `SqliteSetup::open` (lines
115-134): `version` and `statement` are the two mutable locals of the Rust
loop, `steps` the accumulator.  A marker line flushes the open step (with the
accumulated statement trimmed) and starts a new one after parsing the marker
remainder as a version number; every other line is appended to the statement
accumulator followed by a newline.  A marker whose remainder does not parse
as a `u32` aborts the whole call, carrying the offending remainder text. -/
def parseLinesAux :
    List String → Option Nat → String → List (Nat × String) →
    Except String (List (Nat × String))
  | [], version, statement, steps =>
    match version with
    | some v => .ok (steps ++ [(v, rustTrim statement)])
    | none => .ok steps
  | l :: rest, version, statement, steps =>
    if isMarkerLine l then
      let flushed := match version with
        | some v => steps ++ [(v, rustTrim statement)]
        | none => steps
      match parseU32C (dropMarker l.data) with
      | none => .error (String.mk (dropMarker l.data))
      | some v => parseLinesAux rest (some v) "" flushed
    else
      parseLinesAux rest version (statement ++ l ++ "\n") steps

/-- The schema-script parser, Rust lines 115-134 of `sqlite.rs`. -/
def parseScript (text : String) : Except String (List (Nat × String)) :=
  parseLinesAux (rustLines text) none "" []

/-- One full Rust `str::replace` pass for the two-character pattern `[a, b]`
replaced by the single character `rep`, left to right and non-overlapping. -/
def replace2 (a b rep : Char) : List Char → List Char
  | x :: y :: rest =>
    if x == a && y == b then rep :: replace2 a b rep rest
    else x :: replace2 a b rep (y :: rest)
  | l => l

/-- Whether the two-character pattern `[a, b]` occurs in the list; Rust
`str::contains` for the patterns used by the normaliser. -/
def contains2 (a b : Char) : List Char → Bool
  | x :: y :: rest => (x == a && y == b) || contains2 a b (y :: rest)
  | _ => false

/-- The Rust loop `while statement.contains(p) { statement =
statement.trim().replace(p, to) }` for a two-character pattern `p` and a
one-character replacement `rep`.  Each iteration strictly shrinks the list
(`trim` never grows it, and when it removes nothing the pattern is still
present, so the replacement removes at least one character), so a fuel of
`length + 1` makes this total while agreeing with the source loop on every
input. -/
def collapse2 (a b rep : Char) : Nat → List Char → List Char
  | 0, s => s
  | fuel + 1, s =>
    if contains2 a b s then collapse2 a b rep fuel (replace2 a b rep (trimChars s))
    else s

/-- Whitespace normalisation of a statement, lines 153-162 of `sqlite.rs`:
newlines become spaces, then space-after-open-paren, space-before-close-paren
and double spaces are collapsed in turn, re-trimming before each replacement
pass. -/
def normalizeStatement (s : String) : String :=
  let a := s.data.map fun c => if c == '\n' then ' ' else c
  let b := collapse2 '(' ' ' '(' (a.length + 1) a
  let c := collapse2 ' ' ')' ')' (b.length + 1) b
  let d := collapse2 ' ' ' ' ' ' (c.length + 1) c
  String.mk d

/-- Persistent state of the database file: the stored `user_version` and the
schema statements whose transactions have committed, in commit order. -/
structure DB where
  userVersion : Nat
  applied : List String
deriving DecidableEq, Repr

/-- Responses of the SQLite engine, the external collaborator: results of
connection opening, of the queries and pragmas issued by `open`, and of
statement execution.  Oracles that run inside a transaction receive the
in-transaction database state; a `.error` value is the engine's error
message. -/
structure Engine where
  openConn : Except String Unit
  integrity : Except String String
  foreignKeys : Except String Unit
  journalMode : Except String String
  cacheSet : Except String Unit
  txBegin : DB → Except String Unit
  execStmt : DB → String → Except String Unit
  setUserVersion : DB → Nat → Except String Unit
  txCommit : DB → Except String Unit

/-- Error exits of `SqliteSetup::open`, one constructor per failure site,
carrying exactly the data the Rust error carries there: each `.context(...)`
site has a fixed context string baked into its constructor, plus the engine's
own message; the two `bail!` sites carry the reported diagnostic text. -/
inductive OpenErr where
  | openFail (msg : String)
  | integrityQueryFail (msg : String)
  | integrityFailure (diag : String)
  | foreignKeysFail (msg : String)
  | walQueryFail (msg : String)
  | walStuck (mode : String)
  | cacheFail (msg : String)
  | parseFail (text : String)
  | txBeginFail (msg : String)
  | stepFail (ctx : String) (msg : String)
  | commitFail (msg : String)
deriving DecidableEq, Repr

/-- The `SqliteSetup` builder state.  The `create` flag only selects the
open flags passed to the engine, which the `openConn` oracle abstracts. -/
structure Setup where
  schema : Option String
  cacheKb : Option Nat
  create : Bool
  checkIntegrity : Bool
deriving Repr

/-- The `SqliteSetup::new` constructor: no schema, no cache override, no
create, integrity checking enabled. -/
def Setup.new : Setup :=
  { schema := none, cacheKb := none, create := false, checkIntegrity := true }

/-- The `SqliteSetup::schema` builder method. -/
def Setup.withSchema (s : Setup) (text : String) : Setup :=
  { s with schema := some text }

/-- The `SqliteSetup::cache_kb` builder method. -/
def Setup.withCacheKb (s : Setup) (kb : Nat) : Setup :=
  { s with cacheKb := some kb }

/-- The `SqliteSetup::create` builder method. -/
def Setup.withCreate (s : Setup) (b : Bool) : Setup :=
  { s with create := b }

/-- The `SqliteSetup::check_integrity` builder method. -/
def Setup.withCheckIntegrity (s : Setup) (b : Bool) : Setup :=
  { s with checkIntegrity := b }

/-- Configuration commands `open` issues between the integrity check and the
migration loop, in issue order.  `cacheSizeKb v` records the literal pragma
value: the source writes the pragma with a leading minus sign, so the value
is negative, SQLite's convention for kibibytes rather than pages. -/
inductive ConfigCmd where
  | foreignKeysOn
  | journalModeWal
  | cacheSizeKb (v : Int)
deriving DecidableEq, Repr

/-- Lines 56-108 of `open`: connection opening, the optional integrity check
(lines 73-81, comparing the reported value ASCII-uppercased against "OK"),
and the configuration pragmas (lines 88-108: foreign keys, then the
journal-mode switch checked ASCII-uppercased against "WAL", then the optional
cache-size override).  Returns the configuration commands attempted, in
order, plus the first error.  None of these touch the stored version or the
schema. -/
def preamble (setup : Setup) (eng : Engine) : List ConfigCmd × Option OpenErr :=
  match eng.openConn with
  | .error m => ([], some (.openFail m))
  | .ok _ =>
    match
      (if setup.checkIntegrity then
        match eng.integrity with
        | .error m => some (OpenErr.integrityQueryFail m)
        | .ok diag =>
          if toAsciiUppercase diag ≠ "OK" then some (OpenErr.integrityFailure diag)
          else none
      else none) with
    | some e => ([], some e)
    | none =>
      match eng.foreignKeys with
      | .error m => ([.foreignKeysOn], some (.foreignKeysFail m))
      | .ok _ =>
        match eng.journalMode with
        | .error m => ([.foreignKeysOn, .journalModeWal], some (.walQueryFail m))
        | .ok mode =>
          if toAsciiUppercase mode ≠ "WAL" then
            ([.foreignKeysOn, .journalModeWal], some (.walStuck mode))
          else
            match setup.cacheKb with
            | none => ([.foreignKeysOn, .journalModeWal], none)
            | some kb =>
              match eng.cacheSet with
              | .error m =>
                ([.foreignKeysOn, .journalModeWal, .cacheSizeKb (-(kb : Int))],
                  some (.cacheFail m))
              | .ok _ =>
                ([.foreignKeysOn, .journalModeWal, .cacheSizeKb (-(kb : Int))],
                  none)

/-- One iteration of the migration loop (lines 144-200) for the step
`(version, stmt)`: normalise the statement, begin an immediate transaction,
re-read the stored version inside it, and only when the step's version is
strictly greater execute the statement and stamp the new stored version
before committing; otherwise commit the no-op transaction.  The first
component lists the statements handed to the engine for execution; an error
return means the transaction was not committed, so the caller's database
state is unchanged (rollback). -/
def runStep (eng : Engine) (db : DB) (version : Nat) (stmt : String) :
    List String × Except OpenErr DB :=
  match eng.txBegin db with
  | .error m => ([], .error (.txBeginFail m))
  | .ok _ =>
    if version > db.userVersion then
      match eng.execStmt db (normalizeStatement stmt) with
      | .error m =>
        ([normalizeStatement stmt], .error (.stepFail "apply schema change" m))
      | .ok _ =>
        match
          eng.setUserVersion
            { userVersion := db.userVersion,
              applied := db.applied ++ [normalizeStatement stmt] } version with
        | .error m =>
          ([normalizeStatement stmt], .error (.stepFail "set user version" m))
        | .ok _ =>
          match
            eng.txCommit
              { userVersion := version,
                applied := db.applied ++ [normalizeStatement stmt] } with
          | .error m => ([normalizeStatement stmt], .error (.commitFail m))
          | .ok _ =>
            ([normalizeStatement stmt],
              .ok { userVersion := version,
                    applied := db.applied ++ [normalizeStatement stmt] })
    else
      match eng.txCommit db with
      | .error m => ([], .error (.commitFail m))
      | .ok _ => ([], .ok db)

/-- The migration loop over all parsed steps.  A failing step leaves the
database exactly as it was when that step's transaction began and aborts the
remaining steps. -/
def runSteps (eng : Engine) (db : DB) :
    List (Nat × String) → List String × DB × Option OpenErr
  | [] => ([], db, none)
  | (v, s) :: rest =>
    match runStep eng db v s with
    | (es, .error e) => (es, db, some e)
    | (es, .ok db') =>
      match runSteps eng db' rest with
      | (es', db'', err) => (es ++ es', db'', err)

/-- Observable outcome of one `open` invocation: the configuration commands
issued, the schema statements handed to the engine for execution (in issue
order), the resulting persistent database state, and the error, if any. -/
structure OpenResult where
  configCmds : List ConfigCmd
  execs : List String
  db : DB
  err : Option OpenErr
deriving DecidableEq, Repr

/-- The full `SqliteSetup::open` pipeline: the preamble (connection opening,
integrity check, configuration pragmas), then, when a schema script is
configured, parse it and run the migration loop.  The outer `user_version`
read of line 139 is a pure read of modelled state (its value is only logged)
and cannot fail here. -/
def openDB (setup : Setup) (eng : Engine) (db : DB) : OpenResult :=
  match preamble setup eng with
  | (cmds, some e) => { configCmds := cmds, execs := [], db := db, err := some e }
  | (cmds, none) =>
    match setup.schema with
    | none => { configCmds := cmds, execs := [], db := db, err := none }
    | some text =>
      match parseScript text with
      | .error t =>
        { configCmds := cmds, execs := [], db := db, err := some (.parseFail t) }
      | .ok steps =>
        match runSteps eng db steps with
        | (es, db', err) =>
          { configCmds := cmds, execs := es, db := db', err := err }

/-- An engine whose every response succeeds: the integrity scan reports "ok"
and the journal-mode switch reports "wal", the lower-case forms SQLite
actually returns. -/
def okEngine : Engine where
  openConn := .ok ()
  integrity := .ok "ok"
  foreignKeys := .ok ()
  journalMode := .ok "wal"
  cacheSet := .ok ()
  txBegin := fun _ => .ok ()
  execStmt := fun _ _ => .ok ()
  setUserVersion := fun _ _ => .ok ()
  txCommit := fun _ => .ok ()

/-- A fresh database file: version 0, nothing applied. -/
def db0 : DB := { userVersion := 0, applied := [] }

/-- An engine like `okEngine` except that executing the statement "B" fails
with the message "boom". -/
def failBEngine : Engine :=
  { okEngine with
      execStmt := fun _ s => if s = "B" then .error "boom" else .ok () }

/-- An engine whose every statement execution fails with one fixed message. -/
def constFailEngine : Engine :=
  { okEngine with execStmt := fun _ _ => .error "constraint failed" }

/-- An engine whose integrity scan reports a corruption diagnostic. -/
def corruptEngine : Engine :=
  { okEngine with integrity := .ok "row 3 missing from index i" }

/-- An engine that rejects the foreign-key pragma. -/
def fkFailEngine : Engine :=
  { okEngine with foreignKeys := .error "not authorized" }

/-- An engine whose journal-mode switch reports that the mode stayed at
"delete". -/
def stuckEngine : Engine :=
  { okEngine with journalMode := .ok "delete" }

/-- An engine that rejects the cache-size pragma. -/
def cacheFailEngine : Engine :=
  { okEngine with cacheSet := .error "nope" }

/-! Helper lemmas about one migration step. -/

theorem runStep_skip (eng : Engine) (db : DB) (v : Nat) (s : String)
    (h : v ≤ db.userVersion) :
    runStep eng db v s = ([], .ok db) ∨
      (∃ m, runStep eng db v s = ([], .error (.txBeginFail m))) ∨
      (∃ m, runStep eng db v s = ([], .error (.commitFail m))) := by
  unfold runStep
  cases eng.txBegin db with
  | error m => exact Or.inr (Or.inl ⟨m, rfl⟩)
  | ok u =>
    rw [if_neg (by omega)]
    cases eng.txCommit db with
    | error m => exact Or.inr (Or.inr ⟨m, rfl⟩)
    | ok u => exact Or.inl rfl

theorem runStep_skip_commit (eng : Engine) (db : DB) (v : Nat) (s : String)
    (h : v ≤ db.userVersion) (hb : eng.txBegin db = .ok ())
    (hc : eng.txCommit db = .ok ()) :
    runStep eng db v s = ([], .ok db) := by
  unfold runStep
  rw [hb, if_neg (by omega), hc]

theorem runStep_ok_cases (eng : Engine) (db : DB) (v : Nat) (s : String)
    (es : List String) (db' : DB)
    (h : runStep eng db v s = (es, .ok db')) :
    (v ≤ db.userVersion ∧ db' = db) ∨
      (db.userVersion < v ∧
        db' = { userVersion := v,
                applied := db.applied ++ [normalizeStatement s] }) := by
  unfold runStep at h
  cases hb : eng.txBegin db with
  | error m => rw [hb] at h; simp at h
  | ok u =>
    rw [hb] at h
    by_cases hv : v > db.userVersion
    · rw [if_pos hv] at h
      cases hx : eng.execStmt db (normalizeStatement s) with
      | error m => rw [hx] at h; simp at h
      | ok u =>
        rw [hx] at h
        cases hsv : eng.setUserVersion
            { userVersion := db.userVersion,
              applied := db.applied ++ [normalizeStatement s] } v with
        | error m => rw [hsv] at h; simp at h
        | ok u =>
          rw [hsv] at h
          cases hc : eng.txCommit
              { userVersion := v,
                applied := db.applied ++ [normalizeStatement s] } with
          | error m => rw [hc] at h; simp at h
          | ok u =>
            rw [hc] at h
            simp only [Prod.mk.injEq, Except.ok.injEq] at h
            exact Or.inr ⟨hv, h.2.symm⟩
    · rw [if_neg hv] at h
      cases hc : eng.txCommit db with
      | error m => rw [hc] at h; simp at h
      | ok u =>
        rw [hc] at h
        simp only [Prod.mk.injEq, Except.ok.injEq] at h
        exact Or.inl ⟨by omega, h.2.symm⟩

theorem runStep_mono (eng : Engine) (db : DB) (v : Nat) (s : String)
    (es : List String) (db' : DB)
    (h : runStep eng db v s = (es, .ok db')) :
    db.userVersion ≤ db'.userVersion := by
  rcases runStep_ok_cases eng db v s es db' h with ⟨-, h1⟩ | ⟨h1, h2⟩
  · rw [h1]
  · rw [h2]; exact Nat.le_of_lt h1

theorem runStep_execs (eng : Engine) (db : DB) (v : Nat) (s : String) :
    (runStep eng db v s).1 = [] ∨
      (runStep eng db v s).1 = [normalizeStatement s] := by
  unfold runStep
  cases eng.txBegin db with
  | error m => exact Or.inl rfl
  | ok u =>
    by_cases hv : v > db.userVersion
    · rw [if_pos hv]
      cases eng.execStmt db (normalizeStatement s) with
      | error m => exact Or.inr rfl
      | ok u =>
        cases eng.setUserVersion
            { userVersion := db.userVersion,
              applied := db.applied ++ [normalizeStatement s] } v with
        | error m => exact Or.inr rfl
        | ok u =>
          cases eng.txCommit
              { userVersion := v,
                applied := db.applied ++ [normalizeStatement s] } with
          | error m => exact Or.inr rfl
          | ok u => exact Or.inr rfl
    · rw [if_neg hv]
      cases eng.txCommit db with
      | error m => exact Or.inl rfl
      | ok u => exact Or.inl rfl

theorem runStep_err_shape (eng : Engine) (db : DB) (v : Nat) (s : String)
    (es : List String) (e : OpenErr)
    (h : runStep eng db v s = (es, .error e)) :
    (∃ m, e = .txBeginFail m) ∨
      (∃ m, e = .stepFail "apply schema change" m) ∨
      (∃ m, e = .stepFail "set user version" m) ∨
      (∃ m, e = .commitFail m) := by
  unfold runStep at h
  cases hb : eng.txBegin db with
  | error m =>
    rw [hb] at h
    simp only [Prod.mk.injEq, Except.error.injEq] at h
    exact Or.inl ⟨m, h.2.symm⟩
  | ok u =>
    rw [hb] at h
    by_cases hv : v > db.userVersion
    · rw [if_pos hv] at h
      cases hx : eng.execStmt db (normalizeStatement s) with
      | error m =>
        rw [hx] at h
        simp only [Prod.mk.injEq, Except.error.injEq] at h
        exact Or.inr (Or.inl ⟨m, h.2.symm⟩)
      | ok u =>
        rw [hx] at h
        cases hsv : eng.setUserVersion
            { userVersion := db.userVersion,
              applied := db.applied ++ [normalizeStatement s] } v with
        | error m =>
          rw [hsv] at h
          simp only [Prod.mk.injEq, Except.error.injEq] at h
          exact Or.inr (Or.inr (Or.inl ⟨m, h.2.symm⟩))
        | ok u =>
          rw [hsv] at h
          cases hc : eng.txCommit
              { userVersion := v,
                applied := db.applied ++ [normalizeStatement s] } with
          | error m =>
            rw [hc] at h
            simp only [Prod.mk.injEq, Except.error.injEq] at h
            exact Or.inr (Or.inr (Or.inr ⟨m, h.2.symm⟩))
          | ok u => rw [hc] at h; simp at h
    · rw [if_neg hv] at h
      cases hc : eng.txCommit db with
      | error m =>
        rw [hc] at h
        simp only [Prod.mk.injEq, Except.error.injEq] at h
        exact Or.inr (Or.inr (Or.inr ⟨m, h.2.symm⟩))
      | ok u => rw [hc] at h; simp at h

theorem runStep_stepFail_gt (eng : Engine) (db : DB) (v : Nat) (s : String)
    (es : List String) (c m : String)
    (h : runStep eng db v s = (es, .error (.stepFail c m))) :
    db.userVersion < v := by
  by_contra hv
  rcases runStep_skip eng db v s (by omega) with h1 | ⟨m1, h1⟩ | ⟨m1, h1⟩ <;>
    rw [h1] at h <;> simp at h


/-! Helper lemmas about the migration loop, stated through reduced equation
lemmas so that induction proofs can rewrite with concrete step outcomes. -/

theorem runSteps_nil (eng : Engine) (db : DB) :
    runSteps eng db [] = ([], db, none) := rfl

theorem runSteps_cons_err (eng : Engine) (db : DB) (v : Nat) (s : String)
    (rest : List (Nat × String)) (es : List String) (e : OpenErr)
    (h : runStep eng db v s = (es, .error e)) :
    runSteps eng db ((v, s) :: rest) = (es, db, some e) := by
  unfold runSteps; rw [h]

theorem runSteps_cons_ok (eng : Engine) (db : DB) (v : Nat) (s : String)
    (rest : List (Nat × String)) (es : List String) (db' : DB)
    (h : runStep eng db v s = (es, .ok db')) :
    runSteps eng db ((v, s) :: rest) =
      (es ++ (runSteps eng db' rest).1,
        (runSteps eng db' rest).2.1, (runSteps eng db' rest).2.2) := by
  cases hr : runSteps eng db' rest with
  | mk es' q =>
    obtain ⟨db'', err⟩ := q
    unfold runSteps
    simp only [h, hr]

theorem runSteps_mono (eng : Engine) (steps : List (Nat × String)) :
    ∀ db : DB, db.userVersion ≤ (runSteps eng db steps).2.1.userVersion := by
  induction steps with
  | nil => intro db; rw [runSteps_nil]
  | cons p rest ih =>
    intro db
    obtain ⟨v, s⟩ := p
    cases h : runStep eng db v s with
    | mk es r =>
      cases r with
      | error e => rw [runSteps_cons_err eng db v s rest es e h]
      | ok db' =>
        rw [runSteps_cons_ok eng db v s rest es db' h]
        exact Nat.le_trans (runStep_mono eng db v s es db' h) (ih db')

theorem runSteps_ok_bound (eng : Engine) (steps : List (Nat × String)) :
    ∀ (db : DB) (es : List String) (db' : DB),
      runSteps eng db steps = (es, db', none) →
      ∀ p ∈ steps, p.1 ≤ db'.userVersion := by
  induction steps with
  | nil => intro db es db' _ p hp; cases hp
  | cons q rest ih =>
    intro db es db' h p hp
    obtain ⟨v, s⟩ := q
    cases h1 : runStep eng db v s with
    | mk es1 r =>
      cases r with
      | error e =>
        rw [runSteps_cons_err eng db v s rest es1 e h1] at h
        simp at h
      | ok db1 =>
        rw [runSteps_cons_ok eng db v s rest es1 db1 h1] at h
        simp only [Prod.mk.injEq] at h
        obtain ⟨-, hdb, herr⟩ := h
        have hr : runSteps eng db1 rest = ((runSteps eng db1 rest).1, db', none) := by
          rw [← hdb, ← herr]
        rcases List.mem_cons.mp hp with hpq | hprest
        · subst hpq
          have hm : db1.userVersion ≤ db'.userVersion := by
            have := runSteps_mono eng rest db1
            rw [hdb] at this
            exact this
          rcases runStep_ok_cases eng db v s es1 db1 h1 with ⟨hle, hc⟩ | ⟨hlt, hc⟩
          · subst hc; exact Nat.le_trans hle hm
          · rw [hc] at hm; exact hm
        · exact ih db1 (runSteps eng db1 rest).1 db' hr p hprest

theorem runSteps_noop (eng : Engine) (steps : List (Nat × String)) :
    ∀ db : DB, (∀ p ∈ steps, p.1 ≤ db.userVersion) →
      (runSteps eng db steps).1 = [] ∧ (runSteps eng db steps).2.1 = db := by
  induction steps with
  | nil => intro db _; rw [runSteps_nil]; exact ⟨rfl, rfl⟩
  | cons q rest ih =>
    intro db hle
    obtain ⟨v, s⟩ := q
    have hv : v ≤ db.userVersion := hle (v, s) (List.mem_cons_self _ _)
    rcases runStep_skip eng db v s hv with h1 | ⟨m, h1⟩ | ⟨m, h1⟩
    · rw [runSteps_cons_ok eng db v s rest [] db h1]
      have hrest := ih db (fun p hp => hle p (List.mem_cons_of_mem _ hp))
      exact ⟨by simpa using hrest.1, hrest.2⟩
    · rw [runSteps_cons_err eng db v s rest [] (.txBeginFail m) h1]
      exact ⟨rfl, rfl⟩
    · rw [runSteps_cons_err eng db v s rest [] (.commitFail m) h1]
      exact ⟨rfl, rfl⟩

theorem runSteps_append_ok (eng : Engine) (pre : List (Nat × String)) :
    ∀ (db db' : DB) (es : List String) (rest : List (Nat × String)),
      runSteps eng db pre = (es, db', none) →
      runSteps eng db (pre ++ rest) =
        (es ++ (runSteps eng db' rest).1,
          (runSteps eng db' rest).2.1, (runSteps eng db' rest).2.2) := by
  induction pre with
  | nil =>
    intro db db' es rest h
    rw [runSteps_nil] at h
    simp only [Prod.mk.injEq] at h
    obtain ⟨h1, h2, -⟩ := h
    subst h1
    subst h2
    simp
  | cons q pre' ih =>
    intro db db' es rest h
    obtain ⟨v, s⟩ := q
    cases h1 : runStep eng db v s with
    | mk es1 r =>
      cases r with
      | error e =>
        rw [runSteps_cons_err eng db v s pre' es1 e h1] at h
        simp at h
      | ok db1 =>
        rw [runSteps_cons_ok eng db v s pre' es1 db1 h1] at h
        simp only [Prod.mk.injEq] at h
        obtain ⟨hes, hdb, herr⟩ := h
        have hpre : runSteps eng db1 pre' =
            ((runSteps eng db1 pre').1, db', none) := by
          rw [← hdb, ← herr]
        have hih := ih db1 db' (runSteps eng db1 pre').1 rest hpre
        show runSteps eng db ((v, s) :: (pre' ++ rest)) = _
        rw [runSteps_cons_ok eng db v s (pre' ++ rest) es1 db1 h1, hih]
        rw [← hes]
        simp [List.append_assoc]

theorem runSteps_err_shape (eng : Engine) (steps : List (Nat × String)) :
    ∀ (db : DB) (e : OpenErr),
      (runSteps eng db steps).2.2 = some e →
      (∃ m, e = .txBeginFail m) ∨
        (∃ m, e = .stepFail "apply schema change" m) ∨
        (∃ m, e = .stepFail "set user version" m) ∨
        (∃ m, e = .commitFail m) := by
  induction steps with
  | nil => intro db e h; rw [runSteps_nil] at h; simp at h
  | cons q rest ih =>
    intro db e h
    obtain ⟨v, s⟩ := q
    cases h1 : runStep eng db v s with
    | mk es1 r =>
      cases r with
      | error e1 =>
        rw [runSteps_cons_err eng db v s rest es1 e1 h1] at h
        simp only [Option.some.injEq] at h
        exact h ▸ runStep_err_shape eng db v s es1 e1 h1
      | ok db1 =>
        rw [runSteps_cons_ok eng db v s rest es1 db1 h1] at h
        exact ih db1 e h

/-! Helper lemmas about the script parser. -/

theorem parseLinesAux_ok_iff (ls : List String) :
    ∀ (version : Option Nat) (statement : String) (steps : List (Nat × String)),
      (∃ r, parseLinesAux ls version statement steps = .ok r) ↔
        (∀ l ∈ ls, isMarkerLine l = true →
          (parseU32C (dropMarker l.data)).isSome = true) := by
  induction ls with
  | nil =>
    intro version statement steps
    constructor
    · intro _ l hl; cases hl
    · intro _
      cases version with
      | some v => exact ⟨_, rfl⟩
      | none => exact ⟨_, rfl⟩
  | cons l rest ih =>
    intro version statement steps
    by_cases hm : isMarkerLine l = true
    · cases hp : parseU32C (dropMarker l.data) with
      | none =>
        constructor
        · rintro ⟨r, hr⟩
          unfold parseLinesAux at hr
          rw [if_pos hm, hp] at hr
          cases hr
        · intro hall
          have := hall l (List.mem_cons_self _ _) hm
          rw [hp] at this
          simp at this
      | some v =>
        constructor
        · rintro ⟨r, hr⟩
          unfold parseLinesAux at hr
          rw [if_pos hm, hp] at hr
          intro l' hl' hm'
          rcases List.mem_cons.mp hl' with h1 | h1
          · subst h1; rw [hp]; rfl
          · exact ((ih (some v) "" _).mp ⟨r, hr⟩) l' h1 hm'
        · intro hall
          obtain ⟨r, hr⟩ := (ih (some v) ""
              (match version with
               | some pv => steps ++ [(pv, rustTrim statement)]
               | none => steps)).mpr
            (fun l' hl' hm' => hall l' (List.mem_cons_of_mem _ hl') hm')
          refine ⟨r, ?_⟩
          unfold parseLinesAux
          rw [if_pos hm, hp]
          exact hr
    · constructor
      · rintro ⟨r, hr⟩
        unfold parseLinesAux at hr
        rw [if_neg hm] at hr
        intro l' hl' hm'
        rcases List.mem_cons.mp hl' with h1 | h1
        · subst h1; exact absurd hm' hm
        · exact ((ih version (statement ++ l ++ "\n") steps).mp ⟨r, hr⟩) l' h1 hm'
      · intro hall
        obtain ⟨r, hr⟩ := (ih version (statement ++ l ++ "\n") steps).mpr
          (fun l' hl' hm' => hall l' (List.mem_cons_of_mem _ hl') hm')
        refine ⟨r, ?_⟩
        unfold parseLinesAux
        rw [if_neg hm]
        exact hr

theorem parseLinesAux_noMarker (ls : List String) :
    ∀ (statement : String) (steps : List (Nat × String)),
      (∀ l ∈ ls, isMarkerLine l = false) →
      parseLinesAux ls none statement steps = .ok steps := by
  induction ls with
  | nil => intro st steps _; rfl
  | cons l rest ih =>
    intro st steps h
    have hl : isMarkerLine l = false := h l (List.mem_cons_self _ _)
    unfold parseLinesAux
    rw [if_neg (by simp [hl])]
    exact ih _ _ (fun l' hl' => h l' (List.mem_cons_of_mem _ hl'))

theorem parseLinesAux_stmt_irrelevant (ls : List String) :
    ∀ (s1 s2 : String) (steps : List (Nat × String)),
      parseLinesAux ls none s1 steps = parseLinesAux ls none s2 steps := by
  induction ls with
  | nil => intro s1 s2 steps; rfl
  | cons l rest ih =>
    intro s1 s2 steps
    by_cases hm : isMarkerLine l = true
    · unfold parseLinesAux
      rw [if_pos hm, if_pos hm]
    · unfold parseLinesAux
      rw [if_neg hm, if_neg hm]
      exact ih _ _ _

/-! Helper lemmas about the preamble and the full pipeline. -/

theorem preamble_pass (setup : Setup) (eng : Engine) (md : String)
    (hconn : eng.openConn = .ok ())
    (hint : setup.checkIntegrity = true →
      ∃ s, eng.integrity = .ok s ∧ toAsciiUppercase s = "OK")
    (hfk : eng.foreignKeys = .ok ())
    (hjm : eng.journalMode = .ok md)
    (hmd : toAsciiUppercase md = "WAL")
    (hcache : setup.cacheKb = none ∨ eng.cacheSet = .ok ()) :
    preamble setup eng =
      ([ConfigCmd.foreignKeysOn, ConfigCmd.journalModeWal] ++
        (match setup.cacheKb with
          | some kb => [ConfigCmd.cacheSizeKb (-(kb : Int))]
          | none => []), none) := by
  have hstage :
      (if setup.checkIntegrity then
        match eng.integrity with
        | .error m => some (OpenErr.integrityQueryFail m)
        | .ok diag =>
          if toAsciiUppercase diag ≠ "OK" then some (OpenErr.integrityFailure diag)
          else none
      else none) = none := by
    cases hsc : setup.checkIntegrity
    · simp
    · obtain ⟨s, hs, hsu⟩ := hint hsc
      simp [hs, hsu]
  unfold preamble
  rw [hconn]
  simp only [hstage, hfk, hjm]
  rw [if_neg (by simp [hmd])]
  rcases hcache with hc | hc
  · simp [hc]
  · cases hkb : setup.cacheKb with
    | none => rfl
    | some kb => simp [hkb, hc]

theorem openDB_preamble_err (setup : Setup) (eng : Engine) (db : DB)
    (cmds : List ConfigCmd) (e : OpenErr)
    (h : preamble setup eng = (cmds, some e)) :
    openDB setup eng db =
      { configCmds := cmds, execs := [], db := db, err := some e } := by
  unfold openDB; simp only [h]

theorem openDB_noSchema (setup : Setup) (eng : Engine) (db : DB)
    (cmds : List ConfigCmd)
    (hp : preamble setup eng = (cmds, none)) (hs : setup.schema = none) :
    openDB setup eng db =
      { configCmds := cmds, execs := [], db := db, err := none } := by
  unfold openDB; simp only [hp, hs]

theorem openDB_parseFail (setup : Setup) (eng : Engine) (db : DB)
    (cmds : List ConfigCmd) (text t : String)
    (hp : preamble setup eng = (cmds, none))
    (hs : setup.schema = some text)
    (hparse : parseScript text = .error t) :
    openDB setup eng db =
      { configCmds := cmds, execs := [], db := db,
        err := some (.parseFail t) } := by
  unfold openDB; simp only [hp, hs, hparse]

theorem openDB_steps (setup : Setup) (eng : Engine) (db : DB)
    (cmds : List ConfigCmd) (text : String) (steps : List (Nat × String))
    (hp : preamble setup eng = (cmds, none))
    (hs : setup.schema = some text)
    (hparse : parseScript text = .ok steps) :
    openDB setup eng db =
      { configCmds := cmds, execs := (runSteps eng db steps).1,
        db := (runSteps eng db steps).2.1,
        err := (runSteps eng db steps).2.2 } := by
  cases hr : runSteps eng db steps with
  | mk es q =>
    obtain ⟨db', err⟩ := q
    unfold openDB
    simp only [hp, hs, hparse, hr]

theorem integrity_stage_none (setup : Setup) (eng : Engine)
    (hint : setup.checkIntegrity = true →
      ∃ s, eng.integrity = .ok s ∧ toAsciiUppercase s = "OK") :
    (if setup.checkIntegrity then
      match eng.integrity with
      | .error m => some (OpenErr.integrityQueryFail m)
      | .ok diag =>
        if toAsciiUppercase diag ≠ "OK" then some (OpenErr.integrityFailure diag)
        else none
    else none) = none := by
  cases hsc : setup.checkIntegrity
  · simp
  · obtain ⟨s, hs, hsu⟩ := hint hsc
    simp [hs, hsu]

theorem preamble_fkFail (setup : Setup) (eng : Engine) (m : String)
    (hconn : eng.openConn = .ok ())
    (hint : setup.checkIntegrity = true →
      ∃ s, eng.integrity = .ok s ∧ toAsciiUppercase s = "OK")
    (hfk : eng.foreignKeys = .error m) :
    preamble setup eng = ([.foreignKeysOn], some (.foreignKeysFail m)) := by
  unfold preamble
  rw [hconn]
  simp only [integrity_stage_none setup eng hint, hfk]

theorem preamble_walStuck (setup : Setup) (eng : Engine) (md : String)
    (hconn : eng.openConn = .ok ())
    (hint : setup.checkIntegrity = true →
      ∃ s, eng.integrity = .ok s ∧ toAsciiUppercase s = "OK")
    (hfk : eng.foreignKeys = .ok ())
    (hjm : eng.journalMode = .ok md)
    (hmd : toAsciiUppercase md ≠ "WAL") :
    preamble setup eng =
      ([.foreignKeysOn, .journalModeWal], some (.walStuck md)) := by
  unfold preamble
  rw [hconn]
  simp only [integrity_stage_none setup eng hint, hfk, hjm]
  rw [if_pos hmd]

theorem preamble_cacheFail (setup : Setup) (eng : Engine) (md m : String)
    (kb : Nat)
    (hconn : eng.openConn = .ok ())
    (hint : setup.checkIntegrity = true →
      ∃ s, eng.integrity = .ok s ∧ toAsciiUppercase s = "OK")
    (hfk : eng.foreignKeys = .ok ())
    (hjm : eng.journalMode = .ok md)
    (hmd : toAsciiUppercase md = "WAL")
    (hkb : setup.cacheKb = some kb)
    (hcs : eng.cacheSet = .error m) :
    preamble setup eng =
      ([.foreignKeysOn, .journalModeWal, .cacheSizeKb (-(kb : Int))],
        some (.cacheFail m)) := by
  unfold preamble
  rw [hconn]
  simp only [integrity_stage_none setup eng hint, hfk, hjm]
  rw [if_neg (by simp [hmd])]
  simp only [hkb, hcs]

theorem preamble_integrityFailure (setup : Setup) (eng : Engine)
    (cmds : List ConfigCmd) (d : String)
    (h : preamble setup eng = (cmds, some (.integrityFailure d))) :
    setup.checkIntegrity = true ∧ eng.integrity = .ok d ∧
      toAsciiUppercase d ≠ "OK" := by
  unfold preamble at h
  cases hconn : eng.openConn with
  | error m => simp only [hconn] at h; simp at h
  | ok u =>
    simp only [hconn] at h
    cases hstage : (if setup.checkIntegrity then
        match eng.integrity with
        | .error m => some (OpenErr.integrityQueryFail m)
        | .ok diag =>
          if toAsciiUppercase diag ≠ "OK" then
            some (OpenErr.integrityFailure diag)
          else none
      else none) with
    | some e =>
      simp only [hstage] at h
      simp only [Prod.mk.injEq, Option.some.injEq] at h
      obtain ⟨-, he⟩ := h
      subst he
      cases hsc : setup.checkIntegrity
      · rw [hsc] at hstage
        rw [if_neg (by simp)] at hstage
        simp at hstage
      · rw [hsc] at hstage
        rw [if_pos rfl] at hstage
        cases hi : eng.integrity with
        | error m => simp only [hi] at hstage; simp at hstage
        | ok diag =>
          simp only [hi] at hstage
          by_cases hd : toAsciiUppercase diag ≠ "OK"
          · rw [if_pos hd] at hstage
            simp only [Option.some.injEq, OpenErr.integrityFailure.injEq]
              at hstage
            subst hstage
            exact ⟨rfl, rfl, hd⟩
          · rw [if_neg hd] at hstage; simp at hstage
    | none =>
      simp only [hstage] at h
      cases hfk : eng.foreignKeys with
      | error m => simp only [hfk] at h; simp at h
      | ok u2 =>
        simp only [hfk] at h
        cases hjm : eng.journalMode with
        | error m => simp only [hjm] at h; simp at h
        | ok mode =>
          simp only [hjm] at h
          by_cases hw : toAsciiUppercase mode ≠ "WAL"
          · rw [if_pos hw] at h; simp at h
          · rw [if_neg hw] at h
            cases hkb : setup.cacheKb with
            | none => simp only [hkb] at h; simp at h
            | some kb =>
              simp only [hkb] at h
              cases hcs : eng.cacheSet with
              | error m => simp only [hcs] at h; simp at h
              | ok u3 => simp only [hcs] at h; simp at h

theorem preamble_no_stepFail (setup : Setup) (eng : Engine)
    (cmds : List ConfigCmd) (e : OpenErr) (c m : String)
    (h : preamble setup eng = (cmds, some e)) : e ≠ .stepFail c m := by
  intro he
  subst he
  unfold preamble at h
  cases hconn : eng.openConn with
  | error m1 => simp only [hconn] at h; simp at h
  | ok u =>
    simp only [hconn] at h
    cases hstage : (if setup.checkIntegrity then
        match eng.integrity with
        | .error m1 => some (OpenErr.integrityQueryFail m1)
        | .ok diag =>
          if toAsciiUppercase diag ≠ "OK" then
            some (OpenErr.integrityFailure diag)
          else none
      else none) with
    | some e1 =>
      simp only [hstage] at h
      simp only [Prod.mk.injEq, Option.some.injEq] at h
      obtain ⟨-, he⟩ := h
      subst he
      cases hsc : setup.checkIntegrity
      · rw [hsc] at hstage
        rw [if_neg (by simp)] at hstage
        simp at hstage
      · rw [hsc] at hstage
        rw [if_pos rfl] at hstage
        cases hi : eng.integrity with
        | error m1 => simp only [hi] at hstage; simp at hstage
        | ok diag =>
          simp only [hi] at hstage
          by_cases hd : toAsciiUppercase diag ≠ "OK"
          · rw [if_pos hd] at hstage
            simp at hstage
          · rw [if_neg hd] at hstage; simp at hstage
    | none =>
      simp only [hstage] at h
      cases hfk : eng.foreignKeys with
      | error m1 => simp only [hfk] at h; simp at h
      | ok u2 =>
        simp only [hfk] at h
        cases hjm : eng.journalMode with
        | error m1 => simp only [hjm] at h; simp at h
        | ok mode =>
          simp only [hjm] at h
          by_cases hw : toAsciiUppercase mode ≠ "WAL"
          · rw [if_pos hw] at h; simp at h
          · rw [if_neg hw] at h
            cases hkb : setup.cacheKb with
            | none => simp only [hkb] at h; simp at h
            | some kb =>
              simp only [hkb] at h
              cases hcs : eng.cacheSet with
              | error m1 => simp only [hcs] at h; simp at h
              | ok u3 => simp only [hcs] at h; simp at h

theorem openDB_configCmds (setup : Setup) (eng : Engine) (db : DB) :
    (openDB setup eng db).configCmds = (preamble setup eng).1 := by
  cases hp : preamble setup eng with
  | mk cmds perr =>
    cases perr with
    | some e => rw [openDB_preamble_err setup eng db cmds e hp]
    | none =>
      cases hs : setup.schema with
      | none => rw [openDB_noSchema setup eng db cmds hp hs]
      | some text =>
        cases hparse : parseScript text with
        | error t => rw [openDB_parseFail setup eng db cmds text t hp hs hparse]
        | ok steps => rw [openDB_steps setup eng db cmds text steps hp hs hparse]

theorem openDB_mono (setup : Setup) (eng : Engine) (db : DB) :
    db.userVersion ≤ (openDB setup eng db).db.userVersion := by
  cases hp : preamble setup eng with
  | mk cmds perr =>
    cases perr with
    | some e =>
      rw [openDB_preamble_err setup eng db cmds e hp]
    | none =>
      cases hs : setup.schema with
      | none => rw [openDB_noSchema setup eng db cmds hp hs]
      | some text =>
        cases hparse : parseScript text with
        | error t =>
          rw [openDB_parseFail setup eng db cmds text t hp hs hparse]
        | ok steps =>
          rw [openDB_steps setup eng db cmds text steps hp hs hparse]
          exact runSteps_mono eng steps db

theorem parseLinesAux_cons (l : String) (rest : List String)
    (version : Option Nat) (statement : String)
    (steps : List (Nat × String)) :
    parseLinesAux (l :: rest) version statement steps =
      (if isMarkerLine l then
        (match parseU32C (dropMarker l.data) with
         | none => .error (String.mk (dropMarker l.data))
         | some v => parseLinesAux rest (some v) ""
             (match version with
              | some pv => steps ++ [(pv, rustTrim statement)]
              | none => steps))
       else parseLinesAux rest version (statement ++ l ++ "\n") steps) := rfl

theorem parseLinesAux_nonmarker (l : String) (rest : List String)
    (version : Option Nat) (statement : String) (steps : List (Nat × String))
    (h : isMarkerLine l = false) :
    parseLinesAux (l :: rest) version statement steps =
      parseLinesAux rest version (statement ++ l ++ "\n") steps := by
  rw [parseLinesAux_cons]
  rw [if_neg (by simp [h])]

theorem parseLinesAux_dropPre (pre : List String) :
    ∀ (rest : List String) (s1 : String) (steps : List (Nat × String)),
      (∀ l ∈ pre, isMarkerLine l = false) →
      parseLinesAux (pre ++ rest) none s1 steps =
        parseLinesAux rest none "" steps := by
  induction pre with
  | nil =>
    intro rest s1 steps _
    exact parseLinesAux_stmt_irrelevant rest s1 "" steps
  | cons l pre' ih =>
    intro rest s1 steps h
    have hl : isMarkerLine l = false := h l (List.mem_cons_self _ _)
    exact (parseLinesAux_nonmarker l (pre' ++ rest) none s1 steps hl).trans
      (ih rest _ steps (fun l' hl' => h l' (List.mem_cons_of_mem _ hl')))

/-! Claim theorems. -/

/-- C1: a step whose version is not strictly greater than the stored version
read inside its own transaction executes no statement, writes no version
stamp, and commits the transaction as a no-op; consequently, invoking the
full bootstrap a second time right after a successful invocation leaves the
database state (in particular the stored version) exactly as after the first
invocation and hands no statement to the engine, so nothing is executed
twice.  The second part holds for every engine, including ones whose
transaction oracles fail, so the second invocation performs no effective
transaction work at all. -/
theorem c1_skip_and_idempotent :
    (∀ (eng : Engine) (db : DB) (v : Nat) (s : String),
      v ≤ db.userVersion → eng.txBegin db = .ok () →
      eng.txCommit db = .ok () →
      runStep eng db v s = ([], .ok db)) ∧
    (∀ (setup : Setup) (eng : Engine) (db : DB),
      (openDB setup eng db).err = none →
      (openDB setup eng (openDB setup eng db).db).db =
          (openDB setup eng db).db ∧
        (openDB setup eng (openDB setup eng db).db).execs = []) := by
  constructor
  · exact fun eng db v s h hb hc => runStep_skip_commit eng db v s h hb hc
  · intro setup eng db herr
    cases hp : preamble setup eng with
    | mk cmds perr =>
      cases perr with
      | some e =>
        rw [openDB_preamble_err setup eng db cmds e hp] at herr
        simp at herr
      | none =>
        cases hs : setup.schema with
        | none =>
          have h1 := openDB_noSchema setup eng db cmds hp hs
          simp [h1]
        | some text =>
          cases hparse : parseScript text with
          | error t =>
            rw [openDB_parseFail setup eng db cmds text t hp hs hparse] at herr
            simp at herr
          | ok steps =>
            have h1 := openDB_steps setup eng db cmds text steps hp hs hparse
            rw [h1] at herr
            simp only at herr
            have hr : runSteps eng db steps =
                ((runSteps eng db steps).1, (runSteps eng db steps).2.1,
                  (runSteps eng db steps).2.2) := rfl
            rw [herr] at hr
            have hbound := runSteps_ok_bound eng steps db
              (runSteps eng db steps).1 (runSteps eng db steps).2.1 hr
            have h2 := openDB_steps setup eng (runSteps eng db steps).2.1
              cmds text steps hp hs hparse
            have hno := runSteps_noop eng steps (runSteps eng db steps).2.1
              hbound
            simp only [h1]
            rw [h2]
            exact ⟨hno.2, hno.1⟩

/-- Witness for C1: with an all-succeeding engine, a step at version 0
against a fresh store is skipped with no execution, and a bootstrap with a
version-1 script is idempotent on its second invocation. -/
theorem c1_witness :
    runStep okEngine db0 0 "X" = ([], .ok db0) ∧
    ((openDB (Setup.new.withSchema "-- v 1\nA") okEngine
        (openDB (Setup.new.withSchema "-- v 1\nA") okEngine db0).db).db =
      (openDB (Setup.new.withSchema "-- v 1\nA") okEngine db0).db ∧
      (openDB (Setup.new.withSchema "-- v 1\nA") okEngine
        (openDB (Setup.new.withSchema "-- v 1\nA") okEngine db0).db).execs =
        []) :=
  ⟨c1_skip_and_idempotent.1 okEngine db0 0 "X" (by decide) rfl rfl,
    c1_skip_and_idempotent.2 (Setup.new.withSchema "-- v 1\nA") okEngine db0
      (by decide)⟩

/-- C2 counterexample: with the two-step script "-- v 1 / A / -- v 2 / B"
and an engine that fails executing "B", `open` returns a step error, yet the
stored user version after the failed invocation is 1 while it was 0 before
it — the earlier step's transaction had already committed.  This refutes the
claim that the stored version after a failed invocation equals the stored
version before the whole invocation. -/
theorem c2_counterexample :
    (openDB (Setup.new.withSchema "-- v 1\nA\n-- v 2\nB") failBEngine
        db0).err = some (.stepFail "apply schema change" "boom") ∧
    db0.userVersion = 0 ∧
    (openDB (Setup.new.withSchema "-- v 1\nA\n-- v 2\nB") failBEngine
        db0).db.userVersion = 1 := by
  exact ⟨by decide, rfl, by decide⟩

/-- C2 amended: if a step's statement execution or stored-version write
fails, the loop stops with that error and the database is left exactly as it
was when the failing step's transaction began — the failing step's
transaction is never committed, its version remains strictly above the
stored version (so it stays pending for the next invocation), and only the
steps whose own transactions had already committed earlier in the invocation
remain applied. -/
theorem c2_step_failure_atomic :
    ∀ (eng : Engine) (dbStart : DB) (pre : List (Nat × String)) (v : Nat)
      (s : String) (rest : List (Nat × String)) (es0 es : List String)
      (db : DB) (c m : String),
      runSteps eng dbStart pre = (es0, db, none) →
      runStep eng db v s = (es, .error (.stepFail c m)) →
      runSteps eng dbStart (pre ++ (v, s) :: rest) =
        (es0 ++ es, db, some (.stepFail c m)) ∧
      db.userVersion < v := by
  intro eng dbStart pre v s rest es0 es db c m hpre hstep
  refine ⟨?_, runStep_stepFail_gt eng db v s es c m hstep⟩
  rw [runSteps_append_ok eng pre dbStart db es0 ((v, s) :: rest) hpre]
  rw [runSteps_cons_err eng db v s rest es (.stepFail c m) hstep]

/-- Witness for C2's amended theorem at the concrete failing run of the
counterexample. -/
theorem c2_witness :
    runSteps failBEngine db0 [(1, "A"), (2, "B")] =
      (["A", "B"], { userVersion := 1, applied := ["A"] },
        some (.stepFail "apply schema change" "boom")) ∧
    ({ userVersion := 1, applied := ["A"] } : DB).userVersion < 2 :=
  c2_step_failure_atomic failBEngine db0 [(1, "A")] 2 "B" [] ["A"] ["B"]
    { userVersion := 1, applied := ["A"] } "apply schema change" "boom"
    (by decide) (by decide)

/-- C3: a committed step either leaves the database untouched or raises the
stored version to the step's strictly greater version, so the stored version
never decreases across one bootstrap invocation nor across any sequence of
invocations. -/
theorem c3_monotonic :
    (∀ (eng : Engine) (db : DB) (v : Nat) (s : String) (es : List String)
       (db' : DB), runStep eng db v s = (es, .ok db') →
       db' = db ∨ (db.userVersion < v ∧ db'.userVersion = v)) ∧
    (∀ (setup : Setup) (eng : Engine) (db : DB),
      db.userVersion ≤ (openDB setup eng db).db.userVersion) ∧
    (∀ (invs : List (Setup × Engine)) (db : DB),
      db.userVersion ≤
        (invs.foldl (fun d se => (openDB se.1 se.2 d).db) db).userVersion) := by
  refine ⟨?_, fun setup eng db => openDB_mono setup eng db, ?_⟩
  · intro eng db v s es db' h
    rcases runStep_ok_cases eng db v s es db' h with ⟨-, hc⟩ | ⟨hlt, hc⟩
    · exact Or.inl hc
    · exact Or.inr ⟨hlt, by rw [hc]⟩
  · intro invs
    induction invs with
    | nil => intro db; exact Nat.le_refl _
    | cons se rest ih =>
      intro db
      exact Nat.le_trans (openDB_mono se.1 se.2 db)
        (ih (openDB se.1 se.2 db).db)

/-- Witness for C3 at a concrete applied step. -/
theorem c3_witness :
    ({ userVersion := 1, applied := ["A"] } : DB) = db0 ∨
      (db0.userVersion < 1 ∧
        ({ userVersion := 1, applied := ["A"] } : DB).userVersion = 1) :=
  c3_monotonic.1 okEngine db0 1 "A" ["A"]
    { userVersion := 1, applied := ["A"] } (by decide)

/-- C4: statement texts are whitespace-normalised before execution — the
spec's example normalises exactly as claimed, every statement the migration
loop hands to the engine is the normalisation of the parsed step text, and
the end-to-end bootstrap of the example script executes exactly the
normalised statement. -/
theorem c4_whitespace_normalisation :
    normalizeStatement "CREATE TABLE t (\n  a INT,\n  b INT\n)" =
      "CREATE TABLE t (a INT, b INT)" ∧
    (∀ (eng : Engine) (db : DB) (v : Nat) (s : String),
      (runStep eng db v s).1 = [] ∨
        (runStep eng db v s).1 = [normalizeStatement s]) ∧
    (openDB (Setup.new.withSchema
        "-- v 1\nCREATE TABLE t (\n  a INT,\n  b INT\n)") okEngine
        db0).execs = ["CREATE TABLE t (a INT, b INT)"] := by
  exact ⟨by decide, fun eng db v s => runStep_execs eng db v s, by decide⟩

/-- C5 counterexample: the line "-- v -- v 5" begins with the 5-character
marker, and its trailing text (the text immediately after the marker) is
"-- v 5", which does not parse as an unsigned integer — yet parsing does not
fail: `trim_start_matches` strips the marker repeatedly, so the script
parses successfully to a step with version 5.  This refutes "parsing fails
exactly when the marker line's trailing text does not parse as an unsigned
integer" and "the step's number is the digits immediately following the
marker". -/
theorem c5_counterexample :
    isMarkerLine "-- v -- v 5" = true ∧
    String.mk (("-- v -- v 5" : String).data.drop 5) = "-- v 5" ∧
    parseU32 "-- v 5" = none ∧
    parseScript "-- v -- v 5\nX" = .ok [(5, "X")] := by
  exact ⟨by decide, by decide, by decide, by decide⟩

/-- C5 amended: a marker line starts a new version step whose number is
obtained by deleting every leading repetition of the 5-character marker and
parsing the remainder as a `u32`; parsing the script succeeds exactly when
every marker line's remainder, after that repeated stripping, parses as a
`u32`. -/
theorem c5_marker_parse :
    ∀ text : String,
      (∃ steps, parseScript text = .ok steps) ↔
        (∀ l ∈ rustLines text, isMarkerLine l = true →
          (parseU32C (dropMarker l.data)).isSome = true) := by
  intro text
  exact parseLinesAux_ok_iff (rustLines text) none "" []

/-- Witness for C5's amended theorem, applied at the concrete script of the
counterexample. -/
theorem c5_witness :
    ∃ steps, parseScript "-- v -- v 5\nX" = .ok steps :=
  (c5_marker_parse "-- v -- v 5\nX").mpr (by decide)

/-- C6: integrity checking is on by default for a fresh `SqliteSetup`; when
enabled, a reported value other than "ok" (compared ASCII-case-insensitively)
makes `open` fail with an error carrying the reported diagnostic before any
configuration pragma or migration step runs and with the database state
unchanged, while an "ok" report can never surface as an integrity failure. -/
theorem c6_integrity_gate :
    Setup.new.checkIntegrity = true ∧
    (∀ (setup : Setup) (eng : Engine) (db : DB) (s : String),
      setup.checkIntegrity = true → eng.openConn = .ok () →
      eng.integrity = .ok s → toAsciiUppercase s ≠ "OK" →
      openDB setup eng db =
        { configCmds := [], execs := [], db := db,
          err := some (.integrityFailure s) }) ∧
    (∀ (setup : Setup) (eng : Engine) (db : DB) (s d : String),
      setup.checkIntegrity = true → eng.integrity = .ok s →
      toAsciiUppercase s = "OK" →
      (openDB setup eng db).err ≠ some (.integrityFailure d)) := by
  refine ⟨rfl, ?_, ?_⟩
  · intro setup eng db s hci hconn hint hne
    have hp : preamble setup eng = ([], some (.integrityFailure s)) := by
      unfold preamble
      rw [hconn]
      simp [hci, hint, hne]
    exact openDB_preamble_err setup eng db [] _ hp
  · intro setup eng db s d hci hint hup hcontra
    cases hp : preamble setup eng with
    | mk cmds perr =>
      cases perr with
      | some e =>
        rw [openDB_preamble_err setup eng db cmds e hp] at hcontra
        simp only [Option.some.injEq] at hcontra
        subst hcontra
        obtain ⟨-, hint', hne⟩ :=
          preamble_integrityFailure setup eng cmds d hp
        rw [hint] at hint'
        simp only [Except.ok.injEq] at hint'
        subst hint'
        exact hne hup
      | none =>
        cases hs : setup.schema with
        | none =>
          rw [openDB_noSchema setup eng db cmds hp hs] at hcontra
          simp at hcontra
        | some text =>
          cases hparse : parseScript text with
          | error t =>
            rw [openDB_parseFail setup eng db cmds text t hp hs hparse]
              at hcontra
            simp at hcontra
          | ok steps =>
            rw [openDB_steps setup eng db cmds text steps hp hs hparse]
              at hcontra
            simp only at hcontra
            rcases runSteps_err_shape eng steps db (.integrityFailure d)
                hcontra with ⟨m, hm⟩ | ⟨m, hm⟩ | ⟨m, hm⟩ | ⟨m, hm⟩ <;>
              simp at hm

/-- Witness for C6: a corrupt report fails the open untouched, and an "ok"
report never surfaces as an integrity failure. -/
theorem c6_witness :
    openDB Setup.new corruptEngine db0 =
      { configCmds := [], execs := [], db := db0,
        err := some (.integrityFailure "row 3 missing from index i") } ∧
    (openDB Setup.new okEngine db0).err ≠ some (.integrityFailure "x") :=
  ⟨c6_integrity_gate.2.1 Setup.new corruptEngine db0
      "row 3 missing from index i" rfl rfl rfl (by decide),
    c6_integrity_gate.2.2 Setup.new okEngine db0 "ok" "x" rfl rfl (by decide)⟩

/-- C7: after the integrity check, `open` issues the foreign-key pragma,
then the WAL journal-mode switch (failing unless the engine reports back
"WAL" ASCII-case-insensitively), then — only when a cache override was
configured — the cache-size pragma with the negated (kibibyte-convention)
value; each failure aborts the open with no migration step run and the
database state unchanged. -/
theorem c7_configuration :
    (∀ (setup : Setup) (eng : Engine) (db : DB) (md : String),
      eng.openConn = .ok () →
      (setup.checkIntegrity = true →
        ∃ s, eng.integrity = .ok s ∧ toAsciiUppercase s = "OK") →
      eng.foreignKeys = .ok () → eng.journalMode = .ok md →
      toAsciiUppercase md = "WAL" →
      (setup.cacheKb = none ∨ eng.cacheSet = .ok ()) →
      (openDB setup eng db).configCmds =
        [ConfigCmd.foreignKeysOn, ConfigCmd.journalModeWal] ++
          (match setup.cacheKb with
            | some kb => [ConfigCmd.cacheSizeKb (-(kb : Int))]
            | none => [])) ∧
    (∀ (setup : Setup) (eng : Engine) (db : DB) (m : String),
      eng.openConn = .ok () →
      (setup.checkIntegrity = true →
        ∃ s, eng.integrity = .ok s ∧ toAsciiUppercase s = "OK") →
      eng.foreignKeys = .error m →
      openDB setup eng db =
        { configCmds := [.foreignKeysOn], execs := [], db := db,
          err := some (.foreignKeysFail m) }) ∧
    (∀ (setup : Setup) (eng : Engine) (db : DB) (md : String),
      eng.openConn = .ok () →
      (setup.checkIntegrity = true →
        ∃ s, eng.integrity = .ok s ∧ toAsciiUppercase s = "OK") →
      eng.foreignKeys = .ok () → eng.journalMode = .ok md →
      toAsciiUppercase md ≠ "WAL" →
      openDB setup eng db =
        { configCmds := [.foreignKeysOn, .journalModeWal], execs := [],
          db := db, err := some (.walStuck md) }) ∧
    (∀ (setup : Setup) (eng : Engine) (db : DB) (md m : String) (kb : Nat),
      eng.openConn = .ok () →
      (setup.checkIntegrity = true →
        ∃ s, eng.integrity = .ok s ∧ toAsciiUppercase s = "OK") →
      eng.foreignKeys = .ok () → eng.journalMode = .ok md →
      toAsciiUppercase md = "WAL" → setup.cacheKb = some kb →
      eng.cacheSet = .error m →
      openDB setup eng db =
        { configCmds := [.foreignKeysOn, .journalModeWal,
            .cacheSizeKb (-(kb : Int))],
          execs := [], db := db, err := some (.cacheFail m) }) := by
  refine ⟨?_, ?_, ?_, ?_⟩
  · intro setup eng db md hconn hint hfk hjm hmd hcache
    rw [openDB_configCmds setup eng db,
      preamble_pass setup eng md hconn hint hfk hjm hmd hcache]
  · intro setup eng db m hconn hint hfk
    exact openDB_preamble_err setup eng db _ _
      (preamble_fkFail setup eng m hconn hint hfk)
  · intro setup eng db md hconn hint hfk hjm hne
    exact openDB_preamble_err setup eng db _ _
      (preamble_walStuck setup eng md hconn hint hfk hjm hne)
  · intro setup eng db md m kb hconn hint hfk hjm hmd hkb hcs
    exact openDB_preamble_err setup eng db _ _
      (preamble_cacheFail setup eng md m kb hconn hint hfk hjm hmd hkb hcs)

/-- Witness for C7: the four conjuncts at concrete engines. -/
theorem c7_witness :
    (openDB (Setup.new.withCacheKb 512) okEngine db0).configCmds =
      [ConfigCmd.foreignKeysOn, ConfigCmd.journalModeWal,
        ConfigCmd.cacheSizeKb (-512)] ∧
    openDB Setup.new fkFailEngine db0 =
      { configCmds := [.foreignKeysOn], execs := [], db := db0,
        err := some (.foreignKeysFail "not authorized") } ∧
    openDB Setup.new stuckEngine db0 =
      { configCmds := [.foreignKeysOn, .journalModeWal], execs := [],
        db := db0, err := some (.walStuck "delete") } ∧
    openDB (Setup.new.withCacheKb 16) cacheFailEngine db0 =
      { configCmds := [.foreignKeysOn, .journalModeWal,
          .cacheSizeKb (-16)],
        execs := [], db := db0, err := some (.cacheFail "nope") } :=
  ⟨c7_configuration.1 (Setup.new.withCacheKb 512) okEngine db0 "wal" rfl
      (fun _ => ⟨"ok", rfl, by decide⟩) rfl rfl (by decide) (Or.inr rfl),
    c7_configuration.2.1 Setup.new fkFailEngine db0 "not authorized" rfl
      (fun _ => ⟨"ok", rfl, by decide⟩) rfl,
    c7_configuration.2.2.1 Setup.new stuckEngine db0 "delete" rfl
      (fun _ => ⟨"ok", rfl, by decide⟩) rfl rfl (by decide),
    c7_configuration.2.2.2 (Setup.new.withCacheKb 16) cacheFailEngine db0
      "wal" "nope" 16 rfl (fun _ => ⟨"ok", rfl, by decide⟩) rfl rfl
      (by decide) rfl rfl⟩

/-- C8 counterexample: two bootstraps whose failing steps have different
offending versions (5 versus 7) and different offending statement texts
return literally identical errors — a fixed context string plus the engine's
message — so neither the version number nor the statement text is attached
to the returned error. -/
theorem c8_counterexample :
    (openDB (Setup.new.withSchema "-- v 5\nUPDATE a SET x = 1")
        constFailEngine db0).err =
      (openDB (Setup.new.withSchema "-- v 7\nDROP TABLE b")
        constFailEngine db0).err ∧
    (openDB (Setup.new.withSchema "-- v 5\nUPDATE a SET x = 1")
        constFailEngine db0).err =
      some (.stepFail "apply schema change" "constraint failed") := by
  exact ⟨by decide, by decide⟩

/-- C8 amended: a migration-step failure is surfaced with one of the two
fixed context strings of the source ("apply schema change" for statement
execution, "set user version" for the stored-version write) wrapping the
engine's own message; the offending version number and statement text are
only written to the log, not attached to the returned error. -/
theorem c8_step_error_context :
    ∀ (setup : Setup) (eng : Engine) (db : DB) (c m : String),
      (openDB setup eng db).err = some (.stepFail c m) →
      c = "apply schema change" ∨ c = "set user version" := by
  intro setup eng db c m h
  cases hp : preamble setup eng with
  | mk cmds perr =>
    cases perr with
    | some e =>
      rw [openDB_preamble_err setup eng db cmds e hp] at h
      simp only [Option.some.injEq] at h
      exact absurd h (preamble_no_stepFail setup eng cmds e c m hp)
    | none =>
      cases hs : setup.schema with
      | none =>
        rw [openDB_noSchema setup eng db cmds hp hs] at h
        simp at h
      | some text =>
        cases hparse : parseScript text with
        | error t =>
          rw [openDB_parseFail setup eng db cmds text t hp hs hparse] at h
          simp at h
        | ok steps =>
          rw [openDB_steps setup eng db cmds text steps hp hs hparse] at h
          simp only at h
          rcases runSteps_err_shape eng steps db (.stepFail c m) h with
            ⟨m1, hm⟩ | ⟨m1, hm⟩ | ⟨m1, hm⟩ | ⟨m1, hm⟩
          · simp at hm
          · simp only [OpenErr.stepFail.injEq] at hm
            exact Or.inl hm.1
          · simp only [OpenErr.stepFail.injEq] at hm
            exact Or.inr hm.1
          · simp at hm

/-- Witness for C8's amended theorem at the concrete failing run of the
counterexample. -/
theorem c8_witness :
    ("apply schema change" : String) = "apply schema change" ∨
      ("apply schema change" : String) = "set user version" :=
  c8_step_error_context (Setup.new.withSchema "-- v 5\nUPDATE a SET x = 1")
    constFailEngine db0 "apply schema change" "constraint failed" (by decide)

/-- C9: a script with no marker line parses to zero steps, and bootstrapping
with it (for any engine passing the preamble — including engines whose
transaction oracles would fail, so no transaction is even begun) executes no
statement, leaves the database unchanged, and still succeeds. -/
theorem c9_no_marker_noop :
    ∀ (text : String) (setup : Setup) (eng : Engine) (db : DB) (md : String),
      (∀ l ∈ rustLines text, isMarkerLine l = false) →
      parseScript text = .ok [] ∧
      (eng.openConn = .ok () →
       (setup.checkIntegrity = true →
         ∃ s, eng.integrity = .ok s ∧ toAsciiUppercase s = "OK") →
       eng.foreignKeys = .ok () → eng.journalMode = .ok md →
       toAsciiUppercase md = "WAL" →
       (setup.cacheKb = none ∨ eng.cacheSet = .ok ()) →
       (openDB (setup.withSchema text) eng db).execs = [] ∧
       (openDB (setup.withSchema text) eng db).db = db ∧
       (openDB (setup.withSchema text) eng db).err = none) := by
  intro text setup eng db md hnm
  have hparse : parseScript text = .ok [] :=
    parseLinesAux_noMarker (rustLines text) "" [] hnm
  refine ⟨hparse, ?_⟩
  intro hconn hint hfk hjm hmd hcache
  have hp := preamble_pass (setup.withSchema text) eng md hconn hint hfk
    hjm hmd hcache
  have hopen := openDB_steps (setup.withSchema text) eng db _ text [] hp
    rfl hparse
  rw [hopen]
  exact ⟨rfl, rfl, rfl⟩

/-- Witness for C9 at a concrete marker-free script (note that "-- v"
without the trailing space is not a marker). -/
theorem c9_witness :
    parseScript "CREATE TABLE x (a INT);\n-- v\n-- comment" = .ok [] ∧
    (openDB (Setup.new.withSchema "CREATE TABLE x (a INT);\n-- v\n-- comment")
        okEngine db0).execs = [] ∧
    (openDB (Setup.new.withSchema "CREATE TABLE x (a INT);\n-- v\n-- comment")
        okEngine db0).db = db0 ∧
    (openDB (Setup.new.withSchema "CREATE TABLE x (a INT);\n-- v\n-- comment")
        okEngine db0).err = none :=
  have h := c9_no_marker_noop "CREATE TABLE x (a INT);\n-- v\n-- comment"
    Setup.new okEngine db0 "wal" (by decide)
  ⟨h.1, h.2 rfl (fun _ => ⟨"ok", rfl, by decide⟩) rfl rfl (by decide)
    (Or.inl rfl)⟩

/-- C10: every script line before the first marker is silently discarded —
a marker-free prefix of lines never influences the parse result (it is
dropped without being attached to any step and without causing an error),
and in particular a script with junk preamble lines parses to exactly the
steps of its marker part. -/
theorem c10_preamble_discarded :
    (∀ (pre rest : List String) (s1 : String) (steps : List (Nat × String)),
      (∀ l ∈ pre, isMarkerLine l = false) →
      parseLinesAux (pre ++ rest) none s1 steps =
        parseLinesAux rest none "" steps) ∧
    parseScript "PRAGMA junk;\nmore preamble\n-- v 1\nCREATE TABLE a (x INT)" =
      .ok [(1, "CREATE TABLE a (x INT)")] := by
  exact ⟨fun pre rest s1 steps h => parseLinesAux_dropPre pre rest s1 steps h,
    by decide⟩

/-- Witness for C10: the discard applied at a concrete junk prefix. -/
theorem c10_witness :
    parseLinesAux (["junk"] ++ ["-- v 1", "A"]) none "seed" [] =
      parseLinesAux ["-- v 1", "A"] none "" [] :=
  c10_preamble_discarded.1 ["junk"] ["-- v 1", "A"] "seed" [] (by decide)

end Jmclib
